import Mathlib

/-!
Verification of the state-transition engine of the maas-flow repository
(file `state.go`): the transition table, the action set, the dispatcher
(`ProcessNode`), the filter engine (`buildFilter` / `matchedFilter`) and the
batch processor (`ProcessAll`).

Embedding conventions:
* Go errors are modelled by the inductive `GoError`; a Go `nil` error is
  `Option.none`.
* Side effects of an action (log lines via `log.Printf` and external POST
  calls through the MAAS client) are made explicit in the `ActionResult`
  record returned by an action, mirroring the Go `Action` function type
  `func(*maas.MAASObject, MaasNode, ProcessingOptions) error` whose `error`
  return value is the `result` field.
* The external MAAS client is modelled by the outcome it gives to each POST
  call, identified by a descriptor string (`MaasClient`).
* A compiled regular expression (`regexp.Regexp`) is modelled by its
  `MatchString` function; the Go standard library's regex engine is an
  external collaborator, so `regexp.Compile` is a parameter
  (`compile : String → Option Regexp`, `none` modelling a compile error).
* `log.Fatalf` (process abort) in `ProcessAll` is modelled by returning
  `none`.
-/

namespace MaasFlow

/-- A compiled regular expression, modelled by its `MatchString` function. -/
def Regexp : Type := String → Bool

/-- Errors produced by the engine. The two `findAction` constructors carry
exactly the data interpolated into the corresponding `fmt.Errorf` format
strings in `state.go`; `statusRead` models a failing
`node.GetInteger("substatus")`; `callError` models an error returned by an
external POST call. -/
inductive GoError where
  | unknownTarget (target : String)
  | unknownTransition (current : String) (target : String)
  | statusRead
  | callError (msg : String)
  deriving Repr, DecidableEq

/-- The external MAAS control client: the outcome it gives to each POST call
descriptor (`none` = success, `some e` = the call fails with `e`). -/
def MaasClient : Type := String → Option GoError

/-- Modelled from the spec: a Machine "has an identifier, a hostname, a zone,
and a current-state value (read as an integer status code)". The `MaasNode`
accessors (`Hostname`, `Zone`, `ID`, `GetInteger "substatus"`) live outside
the provided source file; `substatus = none` models a failing
`GetInteger("substatus")` read. -/
structure MaasNode where
  Hostname : String
  Zone : String
  ID : String
  substatus : Option Int
  deriving Repr, DecidableEq

/-- The `Include`/`Exclude` pattern lists of one filter dimension
(`ProcessingOptions.Filter.Zones` / `.Hosts` in `state.go`). -/
structure IncludeLists where
  Include : List String
  Exclude : List String
  deriving Repr, DecidableEq

/-- The `Filter` field of `ProcessingOptions`. -/
structure FilterOptions where
  Zones : IncludeLists
  Hosts : IncludeLists
  deriving Repr, DecidableEq

/-- ProcessingOptions used to determine on what hosts to operate
(`state.go` lines 23–36). -/
structure ProcessingOptions where
  Filter : FilterOptions
  Verbose : Bool
  Preview : Bool
  deriving Repr, DecidableEq

/-- The observable outcome of invoking one action: the log lines it printed,
the external POST calls it issued, and the Go `error` value it returned
(`none` = `nil`). -/
structure ActionResult where
  logs : List String
  calls : List String
  result : Option GoError
  deriving Repr, DecidableEq

/-- Action how to get from there to here (`state.go` line 13). -/
def Action : Type := MaasClient → MaasNode → ProcessingOptions → ActionResult

/-- Done we are at the target state, nothing to do. -/
def Done : Action := fun _ node _ =>
  { logs := ["COMPLETE: " ++ node.Hostname], calls := [], result := none }

/-- Deploy cause a node to deploy: logs, then unless `Preview` POSTs "start"
on the node sub-object and returns its error. -/
def Deploy : Action := fun client node options =>
  if options.Preview then
    { logs := ["DEPLOY: " ++ node.Hostname], calls := [], result := none }
  else
    let call := "nodes/" ++ node.ID ++ "/start"
    { logs := ["DEPLOY: " ++ node.Hostname], calls := [call], result := client call }

/-- Aquire aquire a machine to a specific operator: logs, then unless
`Preview` POSTs "acquire" parameterized by the hostname. -/
def Aquire : Action := fun client node options =>
  if options.Preview then
    { logs := ["AQUIRE: " ++ node.Hostname], calls := [], result := none }
  else
    let call := "nodes/acquire?name=" ++ node.Hostname
    { logs := ["AQUIRE: " ++ node.Hostname], calls := [call], result := client call }

/-- Commission cause a node to be commissioned: logs, then unless `Preview`
POSTs "commission" on the node sub-object. -/
def Commission : Action := fun client node options =>
  if options.Preview then
    { logs := ["COMISSION: " ++ node.Hostname], calls := [], result := none }
  else
    let call := "nodes/" ++ node.ID ++ "/commission"
    { logs := ["COMISSION: " ++ node.Hostname], calls := [call], result := client call }

/-- Wait a do nothing state, while work is being done. -/
def Wait : Action := fun _ node _ =>
  { logs := ["WAIT: " ++ node.Hostname], calls := [], result := none }

/-- Fail a state from which we cannot, currently, automatically recover. -/
def Fail : Action := fun _ node _ =>
  { logs := ["FAIL: " ++ node.Hostname], calls := [], result := none }

/-- AdminState an administrative state from which we should make no automatic
transition. -/
def AdminState : Action := fun _ node _ =>
  { logs := ["ADMIN: " ++ node.Hostname], calls := [], result := none }

/-- The sub-table of `Transitions` for target state "Deployed"
(`state.go` lines 45–62). -/
def deployedTransitions : List (String × Action) :=
  [("New", Commission),
   ("Deployed", Done),
   ("Ready", Aquire),
   ("Allocated", Deploy),
   ("Retired", AdminState),
   ("Reserved", AdminState),
   ("Releasing", Wait),
   ("DiskErasing", Wait),
   ("Deploying", Wait),
   ("Commissioning", Wait),
   ("Missing", Fail),
   ("FailedReleasing", Fail),
   ("FailedDiskErasing", Fail),
   ("FailedDeployment", Fail),
   ("Broken", Fail),
   ("FailedCommissioning", Fail)]

/-- Transitions the actual map (`state.go` lines 44–63): for each target
state, the map from current state to action, modelled as an association
list (the Go map literal has pairwise-distinct keys, so lookup agrees). -/
def Transitions : List (String × List (String × Action)) :=
  [("Deployed", deployedTransitions)]

/-- defaultStateMachine Would be nice to drive from a graph language
(`state.go` lines 67–86): the raw graph-language constant. -/
def defaultStateMachine : String :=
  "
        (New)->(Commissioning)
        (Commissioning)->(FailedCommissioning)
        (FailedCommissioning)->(New)
        (Commissioning)->(Ready)
        (Ready)->(Deploying)
        (Ready)->(Allocated)
        (Allocated)->(Deploying)
        (Deploying)->(Deployed)
        (Deploying)->(FailedDeployment)
        (FailedDeployment)->(Broken)
        (Deployed)->(Releasing)
        (Releasing)->(FailedReleasing)
        (FailedReleasing)->(Broken)
        (Releasing)->(DiskErasing)
        (DiskErasing)->(FailedEraseDisk)
        (FailedEraseDisk)->(Broken)
        (Releasing)->(Ready)
        (DiskErasing)->(Ready)
        (Broken)->(Ready)"

/-- The directed edges of `defaultStateMachine`, transcribed line by line from
the graph-language constant above: each line `(A)->(B)` becomes the pair
`(A, B)`. -/
def stateMachineEdges : List (String × String) :=
  [("New", "Commissioning"),
   ("Commissioning", "FailedCommissioning"),
   ("FailedCommissioning", "New"),
   ("Commissioning", "Ready"),
   ("Ready", "Deploying"),
   ("Ready", "Allocated"),
   ("Allocated", "Deploying"),
   ("Deploying", "Deployed"),
   ("Deploying", "FailedDeployment"),
   ("FailedDeployment", "Broken"),
   ("Deployed", "Releasing"),
   ("Releasing", "FailedReleasing"),
   ("FailedReleasing", "Broken"),
   ("Releasing", "DiskErasing"),
   ("DiskErasing", "FailedEraseDisk"),
   ("FailedEraseDisk", "Broken"),
   ("Releasing", "Ready"),
   ("DiskErasing", "Ready"),
   ("Broken", "Ready")]

/-- A state `b` is reachable from `a` in a lifecycle graph: reflexive
transitive closure of the edge list. -/
inductive Reachable (edges : List (String × String)) : String → String → Prop where
  | refl (s : String) : Reachable edges s s
  | step {a b c : String} : (a, b) ∈ edges → Reachable edges b c → Reachable edges a c

/-- `findAction` (`state.go` lines 156–172): two-level lookup in
`Transitions`, failing with the `unknownTarget` error when the target state
has no sub-table and with the `unknownTransition` error when the current
state has no entry in that sub-table. -/
def findAction (target : String) (current : String) : Except GoError Action :=
  match Transitions.lookup target with
  | none => Except.error (GoError.unknownTarget target)
  | some targets =>
    match targets.lookup current with
    | none => Except.error (GoError.unknownTransition current target)
    | some action => Except.ok action

/-- The outcome of one dispatcher call (`ProcessNode`): the Go `error` it
returned (`none` = `nil`), the runs of actions it invoked and awaited
synchronously in the current scheduling context, and the runs of actions it
launched as fire-and-forget goroutines (`go action(...)`), never awaited. -/
structure DispatchOutcome where
  error : Option GoError
  syncRuns : List ActionResult
  asyncRuns : List ActionResult
  deriving Repr, DecidableEq

/-- The invocation step of `ProcessNode` (`state.go` lines 185–190): in
preview mode the resolved action is called synchronously — its returned
error is discarded —, otherwise it is launched with `go`; either way the
dispatcher then returns `nil`. -/
def invokeAction (action : Action) (client : MaasClient) (node : MaasNode)
    (options : ProcessingOptions) : DispatchOutcome :=
  if options.Preview then
    { error := none, syncRuns := [action client node options], asyncRuns := [] }
  else
    { error := none, syncRuns := [], asyncRuns := [action client node options] }

/-- `ProcessNode` (`state.go` lines 175–191), the dispatcher: read the
node's `substatus` integer, map it to a state name, resolve the action for
target "Deployed", and invoke it via `invokeAction`. The integer-to-name
map `MaasNodeStatus(...).String()` is defined outside the provided source
file and is passed in as the parameter `statusName`. -/
def ProcessNode (statusName : Int → String) (client : MaasClient)
    (node : MaasNode) (options : ProcessingOptions) : DispatchOutcome :=
  match node.substatus with
  | none => { error := some GoError.statusRead, syncRuns := [], asyncRuns := [] }
  | some substatus =>
    match findAction "Deployed" (statusName substatus) with
    | Except.error err => { error := some err, syncRuns := [], asyncRuns := [] }
    | Except.ok action => invokeAction action client node options

/-- `buildFilter` (`state.go` lines 193–204): compile every pattern of the
list, failing (`none`) as soon as one pattern does not compile. The Go
regex compiler is the parameter `compile`. -/
def buildFilter (compile : String → Option Regexp) (filter : List String) :
    Option (List Regexp) :=
  filter.mapM compile

/-- `matchedFilter` (`state.go` lines 206–213): true iff any compiled
pattern of the include list matches the target string. -/
def matchedFilter (includeList : List Regexp) (target : String) : Bool :=
  includeList.any fun e => e target

/-- The per-node body of the `ProcessAll` loop (`state.go` lines 228–252):
the two eligibility tests exactly as written in the source —
`len(includeHosts) >= 0 && matchedFilter(includeHosts, hostname)`, then
`len(includeZones) >= 0 && matchedFilter(includeZones, zone)` — and, when
both pass, the dispatcher call. `none` means the dispatcher was not invoked
for this node. -/
def processOneNode (statusName : Int → String) (client : MaasClient)
    (includeHosts : List Regexp) (includeZones : List Regexp)
    (options : ProcessingOptions) (node : MaasNode) : Option DispatchOutcome :=
  if decide (includeHosts.length ≥ 0) && matchedFilter includeHosts node.Hostname then
    if decide (includeZones.length ≥ 0) && matchedFilter includeZones node.Zone then
      some (ProcessNode statusName client node options)
    else
      none
  else
    none

/-- `ProcessAll` (`state.go` lines 216–254), the batch processor: compile
the host and zone include filters (`log.Fatalf`, modelled as `none`, if a
pattern is invalid), then fill the pre-sized `errors` slice: slot `i` holds
the dispatcher's returned error for node `i` when it was dispatched and
`none` (Go `nil`) otherwise. -/
def ProcessAll (statusName : Int → String) (compile : String → Option Regexp)
    (client : MaasClient) (nodes : List MaasNode)
    (options : ProcessingOptions) : Option (List (Option GoError)) :=
  match buildFilter compile options.Filter.Hosts.Include with
  | none => none
  | some includeHosts =>
    match buildFilter compile options.Filter.Zones.Include with
    | none => none
    | some includeZones =>
      some (nodes.map fun node =>
        match processOneNode statusName client includeHosts includeZones options node with
        | none => none
        | some outcome => outcome.error)

/-- The eligibility decision of the `ProcessAll` loop for one node: the
conjunction of the host test (line 230) and the zone test (line 233). -/
def nodeEligible (includeHosts : List Regexp) (includeZones : List Regexp)
    (node : MaasNode) : Bool :=
  (decide (includeHosts.length ≥ 0) && matchedFilter includeHosts node.Hostname) &&
  (decide (includeZones.length ≥ 0) && matchedFilter includeZones node.Zone)

/-- An action whose run depends on the processing options only through the
`Preview` flag (as every action of the transition table does). -/
def PreviewOnly (a : Action) : Prop :=
  ∀ (client : MaasClient) (node : MaasNode) (o1 o2 : ProcessingOptions),
    o1.Preview = o2.Preview → a client node o1 = a client node o2

/-! Concrete fixtures used by witnesses and counterexamples. -/

/-- A concrete regex engine for concrete runs: a pattern matches exactly the
string equal to it (enough to exercise the filter plumbing, whose theorems
hold for every engine). -/
def literalCompile : String → Option Regexp :=
  fun pattern => some (fun s => pattern == s)

/-- A client on which every external call succeeds. -/
def idleClient : MaasClient := fun _ => none

/-- A status-name map sending every integer code to "Ready". -/
def statusNames0 : Int → String := fun _ => "Ready"

/-- A machine named "web-01" in zone "us-east" whose `substatus` read fails. -/
def webNode : MaasNode :=
  { Hostname := "web-01", Zone := "us-east", ID := "n1", substatus := none }

/-- A machine whose `substatus` reads the code that `statusNames0` maps to
"Ready". -/
def readyNode : MaasNode :=
  { Hostname := "ready-01", Zone := "us-east", ID := "n2", substatus := some 4 }

/-- Options with an empty host-include list, a zone-include list matching
"us-east", and preview on. -/
def emptyHostOpts : ProcessingOptions :=
  { Filter := { Zones := { Include := ["us-east"], Exclude := [] },
                Hosts := { Include := [], Exclude := [] } },
    Verbose := false, Preview := true }

/-- Options with all four pattern lists empty and preview on. -/
def noFilterOpts : ProcessingOptions :=
  { Filter := { Zones := { Include := [], Exclude := [] },
                Hosts := { Include := [], Exclude := [] } },
    Verbose := false, Preview := true }

/-- Options with preview off and all four pattern lists empty. -/
def asyncOpts : ProcessingOptions :=
  { Filter := { Zones := { Include := [], Exclude := [] },
                Hosts := { Include := [], Exclude := [] } },
    Verbose := false, Preview := false }

/-- Like `emptyHostOpts` but with nonempty exclude lists, which the matching
logic never reads. -/
def excludeOpts : ProcessingOptions :=
  { Filter := { Zones := { Include := ["us-east"], Exclude := ["us-.*"] },
                Hosts := { Include := [], Exclude := ["web-.*"] } },
    Verbose := false, Preview := true }

/-- An always-failing action: the Go `Action` type is a plain function type,
so this is a legal action value. -/
def failingAction : Action := fun _ _ _ =>
  { logs := [], calls := [], result := some (GoError.callError "boom") }

/-! Helper lemmas. -/

theorem done_previewOnly : PreviewOnly Done := fun _ _ _ _ _ => rfl

theorem wait_previewOnly : PreviewOnly Wait := fun _ _ _ _ _ => rfl

theorem fail_previewOnly : PreviewOnly Fail := fun _ _ _ _ _ => rfl

theorem adminState_previewOnly : PreviewOnly AdminState := fun _ _ _ _ _ => rfl

theorem deploy_previewOnly : PreviewOnly Deploy := by
  intro client node o1 o2 hp
  unfold Deploy
  rw [hp]

theorem aquire_previewOnly : PreviewOnly Aquire := by
  intro client node o1 o2 hp
  unfold Aquire
  rw [hp]

theorem commission_previewOnly : PreviewOnly Commission := by
  intro client node o1 o2 hp
  unfold Commission
  rw [hp]

theorem lookup_previewOnly (entries : List (String × Action))
    (hall : ∀ p ∈ entries, PreviewOnly p.2) (c : String) (a : Action)
    (h : entries.lookup c = some a) : PreviewOnly a := by
  induction entries with
  | nil => simp [List.lookup] at h
  | cons hd tl ih =>
    obtain ⟨k, v⟩ := hd
    simp only [List.lookup] at h
    cases hc : c == k with
    | true =>
      rw [hc] at h
      simp only [] at h
      injection h with h
      subst h
      exact hall _ (List.mem_cons_self _ _)
    | false =>
      rw [hc] at h
      simp only [] at h
      exact ih (fun p hp => hall p (List.mem_cons_of_mem _ hp)) h

theorem deployedTransitions_previewOnly :
    ∀ p ∈ deployedTransitions, PreviewOnly p.2 := by
  intro p hp
  simp only [deployedTransitions, List.mem_cons, List.not_mem_nil, or_false] at hp
  rcases hp with h | h | h | h | h | h | h | h | h | h | h | h | h | h | h | h <;> subst h <;>
    first
      | exact done_previewOnly
      | exact deploy_previewOnly
      | exact aquire_previewOnly
      | exact commission_previewOnly
      | exact wait_previewOnly
      | exact fail_previewOnly
      | exact adminState_previewOnly

theorem transitions_previewOnly (t c : String) (a : Action)
    (h : findAction t c = Except.ok a) : PreviewOnly a := by
  unfold findAction at h
  split at h
  · cases h
  · rename_i sub hl
    split at h
    · cases h
    · rename_i a2 hs
      injection h with h
      subst h
      have hsub : sub = deployedTransitions := by
        simp only [Transitions, List.lookup] at hl
        cases ht : t == "Deployed" with
        | true =>
          simp only [ht] at hl
          injection hl with hl
          exact hl.symm
        | false =>
          simp only [ht, List.lookup] at hl
          exact Option.noConfusion hl
      subst hsub
      exact lookup_previewOnly deployedTransitions deployedTransitions_previewOnly c a2 hs

theorem processNode_previewOnly (statusName : Int → String) (client : MaasClient)
    (node : MaasNode) (o1 o2 : ProcessingOptions) (hp : o1.Preview = o2.Preview) :
    ProcessNode statusName client node o1 = ProcessNode statusName client node o2 := by
  unfold ProcessNode
  cases node.substatus with
  | none => rfl
  | some s =>
    cases hfa : findAction "Deployed" (statusName s) with
    | error e => simp only [hfa]
    | ok a =>
      simp only [hfa]
      unfold invokeAction
      rw [hp, transitions_previewOnly _ _ _ hfa client node o1 o2 hp]

theorem processOneNode_eq (statusName : Int → String) (client : MaasClient)
    (includeHosts includeZones : List Regexp) (options : ProcessingOptions)
    (node : MaasNode) :
    processOneNode statusName client includeHosts includeZones options node =
      if nodeEligible includeHosts includeZones node then
        some (ProcessNode statusName client node options)
      else none := by
  unfold processOneNode nodeEligible
  cases h1 : decide (includeHosts.length ≥ 0) && matchedFilter includeHosts node.Hostname <;>
    cases h2 : decide (includeZones.length ≥ 0) && matchedFilter includeZones node.Zone <;>
      simp [h1, h2]

/-! Claim theorems. -/

/-- C3: for every (target, current) pair present in the transition table,
`findAction` returns the exact configured action and is deterministic across
repeated calls; in particular, for target "Deployed": current "Ready"
resolves to `Aquire`, "Allocated" to `Deploy`, "Retired" to `AdminState`,
"Missing" to `Fail`, and "Deployed" to `Done`. -/
theorem c3_findAction_returns_configured_action :
    (∀ (target current : String) (sub : List (String × Action)) (a : Action),
      Transitions.lookup target = some sub → sub.lookup current = some a →
        findAction target current = Except.ok a) ∧
    findAction "Deployed" "Ready" = Except.ok Aquire ∧
    findAction "Deployed" "Allocated" = Except.ok Deploy ∧
    findAction "Deployed" "Retired" = Except.ok AdminState ∧
    findAction "Deployed" "Missing" = Except.ok Fail ∧
    findAction "Deployed" "Deployed" = Except.ok Done ∧
    ∀ (target current : String), findAction target current = findAction target current := by
  refine ⟨?_, rfl, rfl, rfl, rfl, rfl, fun _ _ => rfl⟩
  intro target current sub a hl hs
  unfold findAction
  simp only [hl, hs]

/-- C3 witness: the general conjunct applied to the concrete pair
("Deployed", "Ready"). -/
theorem c3_findAction_returns_configured_action_witness :
    findAction "Deployed" "Ready" = Except.ok Aquire :=
  c3_findAction_returns_configured_action.1 "Deployed" "Ready" deployedTransitions Aquire rfl rfl

/-- C4: `findAction` fails with the unknown-target error for any target
state not present in the transition table, and with the unknown-transition
error for any current state that has no entry under a present target; in
both cases no action is returned (the result is `Except.error`). -/
theorem c4_findAction_failures :
    (∀ (target current : String), Transitions.lookup target = none →
      findAction target current = Except.error (GoError.unknownTarget target)) ∧
    (∀ (target current : String) (sub : List (String × Action)),
      Transitions.lookup target = some sub → sub.lookup current = none →
        findAction target current = Except.error (GoError.unknownTransition current target)) := by
  constructor
  · intro target current h
    unfold findAction
    rw [h]
  · intro target current sub h1 h2
    unfold findAction
    simp only [h1, h2]

/-- C4 witness: a target absent from the table, and a current state absent
from the sub-table of the present target "Deployed". -/
theorem c4_findAction_failures_witness :
    findAction "Ready" "New" = Except.error (GoError.unknownTarget "Ready") ∧
    findAction "Deployed" "SomeNewState" =
      Except.error (GoError.unknownTransition "SomeNewState" "Deployed") :=
  ⟨c4_findAction_failures.1 "Ready" "New" rfl,
   c4_findAction_failures.2 "Deployed" "SomeNewState" deployedTransitions rfl rfl⟩

/-- C10: the state "FailedEraseDisk" is reachable in the declared lifecycle
graph (`defaultStateMachine`), but the transition table for target
"Deployed" has no entry for it, so `findAction "Deployed" "FailedEraseDisk"`
fails with the unknown-transition error rather than returning an action. -/
theorem c10_failedEraseDisk_reachable_but_unhandled :
    Reachable stateMachineEdges "New" "FailedEraseDisk" ∧
    (Transitions.lookup "Deployed").map (fun sub => sub.lookup "FailedEraseDisk") =
      some none ∧
    findAction "Deployed" "FailedEraseDisk" =
      Except.error (GoError.unknownTransition "FailedEraseDisk" "Deployed") := by
  refine ⟨?_, rfl, rfl⟩
  exact @Reachable.step stateMachineEdges "New" "Commissioning" "FailedEraseDisk" (by decide)
    (@Reachable.step stateMachineEdges "Commissioning" "Ready" "FailedEraseDisk" (by decide)
      (@Reachable.step stateMachineEdges "Ready" "Deploying" "FailedEraseDisk" (by decide)
        (@Reachable.step stateMachineEdges "Deploying" "Deployed" "FailedEraseDisk" (by decide)
          (@Reachable.step stateMachineEdges "Deployed" "Releasing" "FailedEraseDisk" (by decide)
            (@Reachable.step stateMachineEdges "Releasing" "DiskErasing" "FailedEraseDisk"
              (by decide)
              (@Reachable.step stateMachineEdges "DiskErasing" "FailedEraseDisk"
                "FailedEraseDisk" (by decide) (Reachable.refl "FailedEraseDisk")))))))

/-- C1 (refuting the claim): with an *empty* host-include pattern list the
eligibility test of `ProcessAll` rejects every machine, because
`len(includeHosts) >= 0` is vacuously true and `matchedFilter` on an empty
list returns false — even though the compiled zone filter matches the
machine's zone. The machine "web-01" (whose status read would make the
dispatcher return the status-read error, so a dispatched slot could not be
`nil`) gets a `nil` slot and the dispatcher is never invoked for it,
contradicting the claim (and the source's own comment "For hostnames we
always match on an empty filter"). -/
theorem c1_empty_host_include_excludes_all :
    ProcessAll statusNames0 literalCompile idleClient [webNode] emptyHostOpts =
      some [none] ∧
    (∀ includeZones : List Regexp,
      processOneNode statusNames0 idleClient [] includeZones emptyHostOpts webNode = none) ∧
    matchedFilter [fun s => "us-east" == s] webNode.Zone = true ∧
    (ProcessNode statusNames0 idleClient webNode emptyHostOpts).error =
      some GoError.statusRead := by
  refine ⟨rfl, ?_, rfl, rfl⟩
  intro includeZones
  rfl

/-- C2 counterexample: the dispatcher's invocation step (`state.go` lines
185–190) discards the invoked action's returned error even in preview mode:
for an action whose synchronous run fails, the step still returns `nil`, so
the action's own execution failure is not visible to the caller through the
dispatcher's returned error. -/
theorem c2_preview_error_not_propagated :
    (invokeAction failingAction idleClient webNode emptyHostOpts).syncRuns =
      [{ logs := [], calls := [], result := some (GoError.callError "boom") }] ∧
    (invokeAction failingAction idleClient webNode emptyHostOpts).error = none := by
  exact ⟨rfl, rfl⟩

/-- C2 (amended): when `options.Preview` is true and status read and
resolution succeed, the dispatcher invokes the resolved action synchronously
within the current scheduling context, but it ignores the action's returned
error and returns `nil` regardless. -/
theorem c2_preview_sync_invocation_discards_error (statusName : Int → String)
    (client : MaasClient) (node : MaasNode) (options : ProcessingOptions)
    (hp : options.Preview = true) (s : Int) (hs : node.substatus = some s)
    (a : Action) (ha : findAction "Deployed" (statusName s) = Except.ok a) :
    ProcessNode statusName client node options =
      { error := none, syncRuns := [a client node options], asyncRuns := [] } := by
  unfold ProcessNode
  rw [hs]
  simp only [ha]
  unfold invokeAction
  rw [hp]
  simp

/-- C2 witness for the amended claim: a preview run on a machine whose
status resolves to "Ready" invokes `Aquire` synchronously and returns
`nil`. -/
theorem c2_preview_sync_invocation_discards_error_witness :
    ProcessNode statusNames0 idleClient readyNode noFilterOpts =
      { error := none, syncRuns := [Aquire idleClient readyNode noFilterOpts],
        asyncRuns := [] } :=
  c2_preview_sync_invocation_discards_error statusNames0 idleClient readyNode
    noFilterOpts rfl 4 rfl Aquire rfl

/-- C5: `ProcessAll` (when filter compilation succeeds) returns a result
sequence whose length equals the number of input machines; slot `i` holds
the dispatcher's returned error for machine `i` when machine `i` is
eligible, and `nil` when it is ineligible — input and output order
correspond for all `i`. -/
theorem c5_processAll_slots (statusName : Int → String)
    (compile : String → Option Regexp) (client : MaasClient)
    (nodes : List MaasNode) (options : ProcessingOptions)
    (includeHosts includeZones : List Regexp) (errs : List (Option GoError))
    (hh : buildFilter compile options.Filter.Hosts.Include = some includeHosts)
    (hz : buildFilter compile options.Filter.Zones.Include = some includeZones)
    (h : ProcessAll statusName compile client nodes options = some errs) :
    errs.length = nodes.length ∧
    ∀ (i : Nat) (hi : i < nodes.length),
      (nodeEligible includeHosts includeZones nodes[i] = true →
        errs[i]? = some ((ProcessNode statusName client nodes[i] options).error)) ∧
      (nodeEligible includeHosts includeZones nodes[i] = false →
        errs[i]? = some none) := by
  unfold ProcessAll at h
  simp only [hh, hz] at h
  injection h with h
  subst h
  constructor
  · exact List.length_map _ _
  · intro i hi
    have hget := List.getElem?_map
      (fun node =>
        match processOneNode statusName client includeHosts includeZones options node with
        | none => none
        | some outcome => outcome.error)
      nodes i
    rw [List.getElem?_eq_getElem hi] at hget
    constructor
    · intro he
      rw [hget]
      simp [processOneNode_eq, he]
    · intro he
      rw [hget]
      simp [processOneNode_eq, he]

/-- C5 witness: a one-machine unfiltered preview run (the machine is
ineligible because the empty host-include list matches nothing). -/
theorem c5_processAll_slots_witness :
    ([(none : Option GoError)]).length = [webNode].length :=
  (c5_processAll_slots statusNames0 literalCompile idleClient [webNode] noFilterOpts
    [] [] [none] rfl rfl rfl).1

/-- C6: in preview mode, `Deploy`, `Aquire` and `Commission` issue no
external call; `Wait`, `Fail`, `AdminState` and `Done` issue no external
call in either mode; and every action logs exactly one line consisting of
its action-kind tag and the machine's hostname, regardless of preview
mode. -/
theorem c6_action_frame (client : MaasClient) (node : MaasNode)
    (options : ProcessingOptions) (hp : options.Preview = true) :
    (Deploy client node options).calls = [] ∧
    (Aquire client node options).calls = [] ∧
    (Commission client node options).calls = [] ∧
    (∀ (c : MaasClient) (n : MaasNode) (o : ProcessingOptions),
      (Wait c n o).calls = [] ∧ (Fail c n o).calls = [] ∧
      (AdminState c n o).calls = [] ∧ (Done c n o).calls = []) ∧
    (∀ (c : MaasClient) (n : MaasNode) (o : ProcessingOptions),
      (Deploy c n o).logs = ["DEPLOY: " ++ n.Hostname] ∧
      (Aquire c n o).logs = ["AQUIRE: " ++ n.Hostname] ∧
      (Commission c n o).logs = ["COMISSION: " ++ n.Hostname] ∧
      (Wait c n o).logs = ["WAIT: " ++ n.Hostname] ∧
      (Fail c n o).logs = ["FAIL: " ++ n.Hostname] ∧
      (AdminState c n o).logs = ["ADMIN: " ++ n.Hostname] ∧
      (Done c n o).logs = ["COMPLETE: " ++ n.Hostname]) := by
  refine ⟨by simp [Deploy, hp], by simp [Aquire, hp], by simp [Commission, hp], ?_, ?_⟩
  · intro c n o
    exact ⟨rfl, rfl, rfl, rfl⟩
  · intro c n o
    cases ho : o.Preview <;>
      simp [Deploy, Aquire, Commission, Wait, Fail, AdminState, Done, ho]

/-- C6 witness: the preview hypothesis discharged on a concrete preview
run. -/
theorem c6_action_frame_witness :
    (Deploy idleClient readyNode noFilterOpts).calls = [] :=
  (c6_action_frame idleClient readyNode noFilterOpts rfl).1

/-- C7: with an empty zone-include pattern list, the zone test of the
eligibility rule fails for every machine — the machine is never dispatched
(`processOneNode` yields `none`) and every result slot is `nil`. -/
theorem c7_empty_zone_include_excludes_all (statusName : Int → String)
    (compile : String → Option Regexp) (client : MaasClient)
    (nodes : List MaasNode) (options : ProcessingOptions)
    (includeHosts : List Regexp)
    (hzi : options.Filter.Zones.Include = [])
    (hh : buildFilter compile options.Filter.Hosts.Include = some includeHosts) :
    ProcessAll statusName compile client nodes options =
      some (nodes.map fun _ => none) ∧
    ∀ (node : MaasNode),
      processOneNode statusName client includeHosts [] options node = none := by
  have hone : ∀ (node : MaasNode),
      processOneNode statusName client includeHosts [] options node = none := by
    intro node
    unfold processOneNode
    have hm : matchedFilter ([] : List Regexp) node.Zone = false := rfl
    simp [hm]
  refine ⟨?_, hone⟩
  unfold ProcessAll
  simp only [hh, hzi]
  have hb : buildFilter compile [] = some ([] : List Regexp) := rfl
  simp only [hb]
  congr 1
  apply List.map_congr_left
  intro node _
  simp [hone node]

/-- C7 witness: a concrete run whose zone-include list is empty. -/
theorem c7_empty_zone_include_excludes_all_witness :
    ProcessAll statusNames0 literalCompile idleClient [readyNode] asyncOpts =
      some ([readyNode].map fun _ => none) :=
  (c7_empty_zone_include_excludes_all statusNames0 literalCompile idleClient
    [readyNode] asyncOpts [] rfl rfl).1

/-- C8: with preview off, the dispatcher returns without awaiting the
resolved action (the action run appears only among the fire-and-forget
`asyncRuns`) and its returned error reflects only a status-read failure or
a transition-table resolution failure, never the action's own execution
failure (it is `nil` whenever resolution succeeds). -/
theorem c8_async_dispatch (statusName : Int → String) (client : MaasClient)
    (node : MaasNode) (options : ProcessingOptions)
    (hp : options.Preview = false) :
    (node.substatus = none →
      ProcessNode statusName client node options =
        { error := some GoError.statusRead, syncRuns := [], asyncRuns := [] }) ∧
    (∀ (s : Int), node.substatus = some s →
      (∀ (e : GoError), findAction "Deployed" (statusName s) = Except.error e →
        ProcessNode statusName client node options =
          { error := some e, syncRuns := [], asyncRuns := [] }) ∧
      (∀ (a : Action), findAction "Deployed" (statusName s) = Except.ok a →
        ProcessNode statusName client node options =
          { error := none, syncRuns := [],
            asyncRuns := [a client node options] })) := by
  constructor
  · intro hs
    unfold ProcessNode
    rw [hs]
  · intro s hs
    constructor
    · intro e he
      unfold ProcessNode
      rw [hs]
      simp only [he]
    · intro a ha
      unfold ProcessNode
      rw [hs]
      simp only [ha]
      unfold invokeAction
      rw [hp]
      simp

/-- C8 witness: a non-preview run on a machine whose status resolves to
"Ready" launches `Aquire` asynchronously and returns `nil`. -/
theorem c8_async_dispatch_witness :
    ProcessNode statusNames0 idleClient readyNode asyncOpts =
      { error := none, syncRuns := [],
        asyncRuns := [Aquire idleClient readyNode asyncOpts] } :=
  ((c8_async_dispatch statusNames0 idleClient readyNode asyncOpts rfl).2 4 rfl).2 Aquire rfl

/-- C9: the exclude pattern lists are never consulted — two processing
options that agree on the include lists, the verbose flag and the preview
flag (i.e. differ at most in their exclude lists) yield the same
eligibility decision for every machine and the same `ProcessAll` result
sequence. -/
theorem c9_excludes_never_consulted (statusName : Int → String)
    (compile : String → Option Regexp) (client : MaasClient)
    (nodes : List MaasNode) (o1 o2 : ProcessingOptions)
    (hzi : o1.Filter.Zones.Include = o2.Filter.Zones.Include)
    (hhi : o1.Filter.Hosts.Include = o2.Filter.Hosts.Include)
    (_hv : o1.Verbose = o2.Verbose) (hp : o1.Preview = o2.Preview) :
    (∀ (includeHosts includeZones : List Regexp) (node : MaasNode),
      processOneNode statusName client includeHosts includeZones o1 node =
        processOneNode statusName client includeHosts includeZones o2 node) ∧
    ProcessAll statusName compile client nodes o1 =
      ProcessAll statusName compile client nodes o2 := by
  have hone : ∀ (ih iz : List Regexp) (node : MaasNode),
      processOneNode statusName client ih iz o1 node =
        processOneNode statusName client ih iz o2 node := by
    intro ih iz node
    unfold processOneNode
    rw [processNode_previewOnly statusName client node o1 o2 hp]
  refine ⟨hone, ?_⟩
  unfold ProcessAll
  rw [hhi, hzi]
  cases buildFilter compile o2.Filter.Hosts.Include with
  | none => rfl
  | some ih =>
    cases buildFilter compile o2.Filter.Zones.Include with
    | none => rfl
    | some iz =>
      simp only []
      congr 1
      apply List.map_congr_left
      intro node _
      rw [hone ih iz node]

/-- C9 witness: two concrete option values differing only in their exclude
lists give the same batch result. -/
theorem c9_excludes_never_consulted_witness :
    ProcessAll statusNames0 literalCompile idleClient [webNode] emptyHostOpts =
      ProcessAll statusNames0 literalCompile idleClient [webNode] excludeOpts :=
  (c9_excludes_never_consulted statusNames0 literalCompile idleClient [webNode]
    emptyHostOpts excludeOpts rfl rfl rfl rfl).2

end MaasFlow
